import Mathlib

/-!
Verification of the per-note GitHub sync core of the Obsidian-GitHub-Sync
plugin (`src/main.ts`), shallowly embedded in Lean.

The embedding covers:
* `parseGitHubFileUrl` and its helpers (URL percent decoding / encoding are
  models of the JS builtins `decodeURIComponent` / `encodeURIComponent`);
* the target registry stored in `settings.noteTargets` (a JS object keyed by
  note path, modelled as an association list with unique keys), together with
  the mutations performed by `setNoteTarget` and the vault `rename` handler;
* the single-note sync engine `syncNoteWithGitHub`, with the vault and the
  GitHub HTTP API as explicit oracles, returning the outcome together with the
  list of HTTP requests issued;
* the batch driver `SyncAllTargetedNotes` with its success/failure counters.
-/

namespace GHSync

/-! ### Models of the JS string builtins used by `src/main.ts`

Core Lean `String` functions such as `String.toLower` and `String.splitOn` do
not reduce inside the kernel, so the JS builtins are modelled directly by
structural recursion over character lists. -/

/-- Model of the JS `String.prototype.toLowerCase` (ASCII-relevant part). -/
def jsToLowerCase (s : String) : String :=
  (s.toList.map Char.toLower).asString

/-- Model of the JS `String.prototype.trim`: strip whitespace from both ends. -/
def jsTrim (s : String) : String :=
  (((s.toList.dropWhile Char.isWhitespace).reverse.dropWhile
    Char.isWhitespace).reverse).asString

/-- Auxiliary for `jsSplitChar`: accumulates the current segment reversed. -/
def jsSplitCharAux (sep : Char) : List Char → List Char → List String
  | [], acc => [acc.reverse.asString]
  | c :: rest, acc =>
    if c = sep then acc.reverse.asString :: jsSplitCharAux sep rest []
    else jsSplitCharAux sep rest (c :: acc)

/-- Model of the JS `String.prototype.split` with a single-character
separator: `"a/b".split('/') = ["a", "b"]`, `"/a".split('/') = ["", "a"]`. -/
def jsSplitChar (sep : Char) (s : String) : List String :=
  jsSplitCharAux sep s.toList []

/-- Model of the JS `Array.prototype.join` on an array of strings. -/
def jsJoin (sep : String) : List String → String
  | [] => ""
  | [s] => s
  | s :: rest => s ++ sep ++ jsJoin sep rest

/-! ### Percent decoding: a model of the JS builtin `decodeURIComponent` -/

/-- Numeric value of a hexadecimal digit, `none` for a non-hex character. -/
def hexDigitValue (c : Char) : Option Nat :=
  if 48 ≤ c.toNat ∧ c.toNat ≤ 57 then some (c.toNat - 48)
  else if 65 ≤ c.toNat ∧ c.toNat ≤ 70 then some (c.toNat - 55)
  else if 97 ≤ c.toNat ∧ c.toNat ≤ 102 then some (c.toNat - 87)
  else none

/-- Tokenised input of `decodeURIComponent`: either a literal character or the
byte denoted by a `%XX` escape. -/
inductive UriToken where
  | lit (c : Char)
  | byte (b : Nat)
deriving DecidableEq, Repr

/-- Split a character list into literal characters and `%XX` escape bytes;
`none` models the `URIError` thrown on a malformed escape. -/
def uriTokens : List Char → Option (List UriToken)
  | [] => some []
  | '%' :: h1 :: h2 :: rest =>
    match hexDigitValue h1, hexDigitValue h2 with
    | some a, some b => (uriTokens rest).map (UriToken.byte (16 * a + b) :: ·)
    | _, _ => none
  | '%' :: _ => none
  | c :: rest => (uriTokens rest).map (UriToken.lit c :: ·)

/-- Payload of a UTF-8 continuation byte, `none` if the byte is not a
continuation byte. -/
def contBytePayload (b : Nat) : Option Nat :=
  if 128 ≤ b ∧ b ≤ 191 then some (b % 64) else none

/-- Recombine escape bytes into characters following the ECMAScript `Decode`
algorithm: ASCII escape bytes stand alone, higher lead bytes consume the
matching number of continuation escape bytes and must form a valid, shortest
UTF-8 encoding of a scalar value; anything else is a `URIError` (`none`). -/
def decodeTokens : List UriToken → Option (List Char)
  | [] => some []
  | UriToken.lit c :: rest => (decodeTokens rest).map (c :: ·)
  | UriToken.byte b :: rest =>
    if b < 128 then (decodeTokens rest).map (Char.ofNat b :: ·)
    else if b < 192 then none
    else if b < 224 then
      match rest with
      | UriToken.byte b1 :: rest1 =>
        match contBytePayload b1 with
        | some p1 =>
          let cp := (b % 32) * 64 + p1
          if cp < 128 then none else (decodeTokens rest1).map (Char.ofNat cp :: ·)
        | none => none
      | _ => none
    else if b < 240 then
      match rest with
      | UriToken.byte b1 :: UriToken.byte b2 :: rest2 =>
        match contBytePayload b1, contBytePayload b2 with
        | some p1, some p2 =>
          let cp := (b % 16) * 4096 + p1 * 64 + p2
          if cp < 2048 ∨ (55296 ≤ cp ∧ cp ≤ 57343) then none
          else (decodeTokens rest2).map (Char.ofNat cp :: ·)
        | _, _ => none
      | _ => none
    else if b < 248 then
      match rest with
      | UriToken.byte b1 :: UriToken.byte b2 :: UriToken.byte b3 :: rest3 =>
        match contBytePayload b1, contBytePayload b2, contBytePayload b3 with
        | some p1, some p2, some p3 =>
          let cp := (b % 8) * 262144 + p1 * 4096 + p2 * 64 + p3
          if cp < 65536 ∨ 1114111 < cp then none
          else (decodeTokens rest3).map (Char.ofNat cp :: ·)
        | _, _, _ => none
      | _ => none
    else none

/-- Model of the JS builtin `decodeURIComponent`: `none` models a thrown
`URIError` (which `parseGitHubFileUrl` catches, yielding `null`). -/
def decodeURIComponent (s : String) : Option String :=
  (uriTokens s.toList).bind (fun ts => (decodeTokens ts).map List.asString)

/-! ### Percent encoding: a model of the JS builtin `encodeURIComponent` -/

/-- UTF-8 bytes of a character, as natural numbers below 256. -/
def utf8BytesOfChar (c : Char) : List Nat :=
  let n := c.toNat
  if n < 128 then [n]
  else if n < 2048 then [192 + n / 64, 128 + n % 64]
  else if n < 65536 then [224 + n / 4096, 128 + n / 64 % 64, 128 + n % 64]
  else [240 + n / 262144, 128 + n / 4096 % 64, 128 + n / 64 % 64, 128 + n % 64]

/-- Uppercase hexadecimal digit for a value below 16. -/
def upperHexDigit (n : Nat) : Char :=
  if n < 10 then Char.ofNat (48 + n) else Char.ofNat (55 + n)

/-- Characters `encodeURIComponent` leaves unescaped:
`A-Z a-z 0-9 - _ . ! ~ * ' ( )`. -/
def uriUnescaped (c : Char) : Bool :=
  c.isAlphanum || c = '-' || c = '_' || c = '.' || c = '!' ||
    c = Char.ofNat 126 || c = Char.ofNat 42 || c = Char.ofNat 39 ||
    c = '(' || c = ')'

/-- Model of the JS builtin `encodeURIComponent`. -/
def encodeURIComponent (s : String) : String :=
  List.asString <| (s.toList.map (fun c =>
    if uriUnescaped c then [c]
    else ((utf8BytesOfChar c).map
      (fun b => ['%', upperHexDigit (b / 16), upperHexDigit (b % 16)])).flatten)).flatten

/-- `encodeURIComponentPath` from `src/main.ts:434`: percent-encode each
slash-separated segment individually and rejoin with slashes. -/
def encodeURIComponentPath (path : String) : String :=
  jsJoin "/" ((jsSplitChar '/' path).map encodeURIComponent)

/-! ### Base64: a model of `Buffer.from(content, 'utf8').toString('base64')` -/

/-- UTF-8 byte sequence of a string. -/
def utf8Bytes (s : String) : List Nat :=
  (s.toList.map utf8BytesOfChar).flatten

/-- The base64 alphabet. -/
def base64Chars : List Char :=
  "ABCDEFGHIJKLMNOPQRSTUVWXYZabcdefghijklmnopqrstuvwxyz0123456789+/".toList

/-- Character of the base64 alphabet at a given index. -/
def base64Char (n : Nat) : Char := base64Chars.getD n 'A'

/-- Standard base64 encoding of a byte sequence, with `=` padding. -/
def base64Encode : List Nat → String
  | [] => ""
  | [a] =>
    List.asString [base64Char (a / 4), base64Char (a % 4 * 16), '=', '=']
  | [a, b] =>
    List.asString [base64Char (a / 4), base64Char (a % 4 * 16 + b / 16),
      base64Char (b % 16 * 4), '=']
  | a :: b :: c :: rest =>
    List.asString [base64Char (a / 4), base64Char (a % 4 * 16 + b / 16),
      base64Char (b % 16 * 4 + c / 64), base64Char (c % 64)] ++ base64Encode rest

/-! ### Data model -/

/-- `NoteSyncTarget` from `src/main.ts:14`. -/
structure NoteSyncTarget where
  repoUrl : String
  owner : String
  repo : String
  branch : String
  filePath : String
deriving DecidableEq, Repr

/-- The result of `parseGitHubFileUrl`: a `NoteSyncTarget` without `repoUrl`
(the TS return type is `Omit<NoteSyncTarget, 'repoUrl'>`). -/
structure ParsedTarget where
  owner : String
  repo : String
  branch : String
  filePath : String
deriving DecidableEq, Repr

/-! ### URL target parser (`parseGitHubFileUrl`, `src/main.ts:400`) -/

/-- The outcome of the WHATWG `new URL(url)` constructor, restricted to the
two properties `parseGitHubFileUrl` reads: `hostname` and `pathname`. -/
structure ParsedUrl where
  hostname : String
  pathname : String
deriving DecidableEq, Repr

/-- `parsedUrl.pathname.split('/').filter(Boolean).map(p => decodeURIComponent(p))`
from `src/main.ts:404`; `none` models `decodeURIComponent` throwing on some
segment (the exception is caught by the surrounding try/catch). -/
def urlPathParts (pathname : String) : Option (List String) :=
  ((jsSplitChar '/' pathname).filter (fun s => s != "")).mapM decodeURIComponent

/-- `parseGitHubFileUrl` from `src/main.ts:400`. The argument is the result of
`new URL(url)`: `none` when the constructor throws (invalid URL), in which
case the catch branch returns `null`. -/
def parseGitHubFileUrl (url : Option ParsedUrl) : Option ParsedTarget :=
  match url with
  | none => none
  | some u =>
    let host := jsToLowerCase u.hostname
    match urlPathParts u.pathname with
    | none => none
    | some parts =>
      if host = "github.com" then
        if parts.length < 5 ∨ parts[2]? ≠ some "blob" then none
        else some { owner := parts.getD 0 "", repo := parts.getD 1 "",
                    branch := parts.getD 3 "",
                    filePath := jsJoin "/" (parts.drop 4) }
      else if host = "raw.githubusercontent.com" then
        if parts.length < 4 then none
        else some { owner := parts.getD 0 "", repo := parts.getD 1 "",
                    branch := parts.getD 2 "",
                    filePath := jsJoin "/" (parts.drop 3) }
      else none

/-! ### Target registry (`settings.noteTargets`)

`noteTargets` is a JS object keyed by note path; it is modelled as an
association list with unique keys, in insertion order (matching
`Object.keys`). -/

/-- The registry mapping note paths to sync targets. -/
abbrev Registry := List (String × NoteSyncTarget)

/-- Property read `obj[key]` on a JS object (`undefined` becomes `none`). -/
def lookupTarget : Registry → String → Option NoteSyncTarget
  | [], _ => none
  | (k, v) :: rest, key => if k = key then some v else lookupTarget rest key

/-- Assignment `obj[key] = value` on a JS object: replaces the value in place
when the key is present, otherwise appends a new entry. -/
def setKey : Registry → String → NoteSyncTarget → Registry
  | [], key, v => [(key, v)]
  | (k, v') :: rest, key, v =>
    if k = key then (key, v) :: rest else (k, v') :: setKey rest key v

/-- `delete obj[key]` on a JS object. -/
def delKey (r : Registry) (key : String) : Registry :=
  r.filter (fun p => p.1 != key)

/-- `setNoteTarget` from `src/main.ts:237`: a non-null target is inserted or
fully replaced at `file.path`, a null target deletes the entry. (The
`if (!this.settings.noteTargets)` guard only re-initialises an undefined map
and has no effect in this model, where the registry always exists.) -/
def setNoteTarget (r : Registry) (notePath : String)
    (target : Option NoteSyncTarget) : Registry :=
  match target with
  | some t => setKey r notePath t
  | none => delKey r notePath

/-- The vault `rename` event handler registered at `src/main.ts:153`, for a
renamed `TFile`: if an entry exists at the old path it is deleted and its
target is stored under the new path, otherwise nothing happens. -/
def renameNoteHandler (r : Registry) (oldPath newPath : String) : Registry :=
  match lookupTarget r oldPath with
  | none => r
  | some oldTarget => setKey (delKey r oldPath) newPath oldTarget

/-- The vault `delete` event handler registered at `src/main.ts:165`, for a
deleted `TFile`. -/
def deleteNoteHandler (r : Registry) (path : String) : Registry :=
  if (lookupTarget r path).isSome then delKey r path else r

/-! ### Single-note sync engine (`syncNoteWithGitHub`, `src/main.ts:176`) -/

/-- Plugin settings (`GHSyncSettings` from `src/main.ts:6`). -/
structure GHSyncSettings where
  syncinterval : Int
  isSyncOnLoad : Bool
  checkStatusOnLoad : Bool
  githubToken : String
  noteTargets : Registry

/-- JSON body of the contents-API PUT request (`src/main.ts:216`). A `sha` of
`none` models `sha: undefined`, which `JSON.stringify` drops from the wire
body, so `none` means the serialized body contains no `sha` field at all. -/
structure PutBody where
  message : String
  content : String
  branch : String
  sha : Option String
deriving DecidableEq, Repr

/-- An HTTP request issued through `requestUrl`. -/
inductive Request where
  | get (url : String)
  | put (url : String) (body : PutBody)
deriving DecidableEq, Repr

/-- Outcome of the conditional GET at `src/main.ts:200`: `ok sha` is a
successful response whose JSON carries revision marker `sha`; `err status`
models `requestUrl` throwing an error `e`, where `status = none` covers both a
falsy `e` and an `e` without a numeric `status` field. -/
inductive ReadResult where
  | ok (sha : String)
  | err (status : Option Nat)
deriving DecidableEq, Repr

/-- Behaviour of the remote API during one sync attempt: the outcome of the
conditional GET, and whether the PUT (if reached) succeeds. -/
structure RemoteEnv where
  readResult : ReadResult
  writeOk : Bool
deriving DecidableEq, Repr

/-- How one call to `syncNoteWithGitHub` ends. `vaultReadError` models
`this.app.vault.read(file)` throwing: that exception is not caught inside
`syncNoteWithGitHub` and propagates to the caller; every other constructor is
a normal return. -/
inductive SyncResult where
  | noTarget
  | missingToken
  | vaultReadError
  | readFailed
  | synced
  | writeFailed
deriving DecidableEq, Repr

/-- The two properties of an Obsidian `TFile` that `syncNoteWithGitHub`
reads: `file.path` (the registry key) and `file.name` (used in the commit
message). -/
structure NoteFile where
  path : String
  name : String
deriving DecidableEq, Repr

/-- `syncNoteWithGitHub` from `src/main.ts:176`, with the vault read and the
remote API as explicit oracles (`vaultContent = none` models a throwing
`vault.read`; `nowIso` is `new Date().toISOString()`). Returns the outcome
together with the list of HTTP requests issued, in order. -/
def syncNoteWithGitHub (settings : GHSyncSettings) (file : NoteFile)
    (vaultContent : Option String) (env : RemoteEnv) (nowIso : String) :
    SyncResult × List Request :=
  match lookupTarget settings.noteTargets file.path with
  | none => (.noTarget, [])
  | some target =>
    if settings.githubToken = "" ∨ (jsTrim settings.githubToken).length = 0 then
      (.missingToken, [])
    else
      match vaultContent with
      | none => (.vaultReadError, [])
      | some content =>
        let encodedContent := base64Encode (utf8Bytes content)
        let apiUrl := "https://api.github.com/repos/" ++ target.owner ++ "/" ++
          target.repo ++ "/contents/" ++ encodeURIComponentPath target.filePath
        let getReq := Request.get
          (apiUrl ++ "?ref=" ++ encodeURIComponent target.branch)
        let readStep : Option (Option String) :=
          match env.readResult with
          | .ok sha => some (some sha)
          | .err status => if status = some 404 then some none else none
        match readStep with
        | none => (.readFailed, [getReq])
        | some existingSha =>
          let body : PutBody :=
            { message := "Update " ++ file.name ++ " from Obsidian on " ++ nowIso
              content := encodedContent
              branch := target.branch
              sha := existingSha }
          if env.writeOk then (.synced, [getReq, .put apiUrl body])
          else (.writeFailed, [getReq, .put apiUrl body])

/-- The PUT bodies among a list of issued requests. -/
def putBodies (reqs : List Request) : List PutBody :=
  reqs.filterMap (fun r => match r with
    | .put _ b => some b
    | _ => none)

/-! ### Batch sync (`SyncAllTargetedNotes`, `src/main.ts:35`) -/

/-- Oracle for one registry entry during a batch run: whether
`getAbstractFileByPath` resolves the path to a `TFile`, what `vault.read`
returns for it (`none` models a thrown read error), and the remote API
behaviour for its sync attempt. -/
structure BatchNoteEnv where
  isTFile : Bool
  content : Option String
  remote : RemoteEnv

/-- `file.name` of a vault file: the last slash-separated component of its
path. -/
def fileNameOfPath (p : String) : String :=
  (jsSplitChar '/' p).getLastD p

/-- What happened to one registry key in the `SyncAllTargetedNotes` loop:
either `syncNoteWithGitHub` was invoked on a resolved `TFile` (recording its
outcome and requests) or the path did not resolve to a `TFile` and the loop
took the `else` branch without any sync attempt. -/
inductive BatchStep where
  | attempted (path : String) (result : SyncResult) (requests : List Request)
  | notAFile (path : String)
deriving DecidableEq, Repr

/-- One iteration of the loop at `src/main.ts:49`. -/
def syncAllStep (settings : GHSyncSettings) (env : String → BatchNoteEnv)
    (nowIso : String) (path : String) : BatchStep :=
  let e := env path
  if e.isTFile then
    let r := syncNoteWithGitHub settings ⟨path, fileNameOfPath path⟩
      e.content e.remote nowIso
    .attempted path r.1 r.2
  else .notAFile path

/-- Whether the loop body increments `successCount` for this step. The
`try`/`catch` counts a step as a success exactly when no exception escaped:
`syncNoteWithGitHub` handles every remote failure internally and returns
normally, so the only exception that can reach the `catch` (making the step a
failure) is a throwing vault read; an unresolved path takes the `else` branch
and is also a failure. -/
def stepCountsAsSuccess : BatchStep → Bool
  | .attempted _ result _ => result != SyncResult.vaultReadError
  | .notAFile _ => false

/-- The requests issued during one batch step. -/
def stepRequests : BatchStep → List Request
  | .attempted _ _ reqs => reqs
  | .notAFile _ => []

/-- `SyncAllTargetedNotes` from `src/main.ts:35`: iterate over
`Object.keys(noteTargets)` (the registry keys in insertion order), run one
loop iteration per key, and report `(successCount, failureCount)` together
with the per-key steps. (When the registry is empty the original returns
early after a notice; the counters are then never displayed, and this model
yields `(0, 0, [])` for that case.) -/
def SyncAllTargetedNotes (settings : GHSyncSettings)
    (env : String → BatchNoteEnv) (nowIso : String) :
    Nat × Nat × List BatchStep :=
  let steps := (settings.noteTargets.map Prod.fst).map
    (syncAllStep settings env nowIso)
  (steps.countP stepCountsAsSuccess,
   steps.countP (fun s => !stepCountsAsSuccess s),
   steps)

/-! ### Sample data used by concrete witnesses -/

/-- A sample sync target. -/
def sampleTargetA : NoteSyncTarget :=
  ⟨"https://github.com/alice/notes/blob/main/docs/page.md",
   "alice", "notes", "main", "docs/page.md"⟩

/-- A second sample sync target. -/
def sampleTargetB : NoteSyncTarget :=
  ⟨"https://github.com/bob/wiki/blob/main/b.md", "bob", "wiki", "main", "b.md"⟩

/-- Sample settings with one targeted note and a configured token. -/
def sampleSettings : GHSyncSettings :=
  ⟨0, false, true, "tok", [("A.md", sampleTargetA)]⟩

/-- Sample settings whose token is whitespace only. -/
def sampleSettingsBlankToken : GHSyncSettings :=
  ⟨0, false, true, "  ", [("A.md", sampleTargetA)]⟩

/-! ### Helper lemmas about the registry operations -/

theorem lookupTarget_setKey_self (r : Registry) (k : String)
    (v : NoteSyncTarget) : lookupTarget (setKey r k v) k = some v := by
  induction r with
  | nil => simp [setKey, lookupTarget]
  | cons p rest ih =>
    obtain ⟨k', v'⟩ := p
    by_cases h : k' = k
    · simp [setKey, h, lookupTarget]
    · simp [setKey, h, lookupTarget, ih]

theorem lookupTarget_setKey_ne (r : Registry) (k key : String)
    (v : NoteSyncTarget) (h : k ≠ key) :
    lookupTarget (setKey r k v) key = lookupTarget r key := by
  induction r with
  | nil => simp [setKey, lookupTarget, h]
  | cons p rest ih =>
    obtain ⟨k', v'⟩ := p
    by_cases h' : k' = k
    · simp [setKey, h', lookupTarget, h]
    · simp [setKey, h', lookupTarget, ih]

theorem lookupTarget_delKey_self (r : Registry) (k : String) :
    lookupTarget (delKey r k) k = none := by
  induction r with
  | nil => simp [delKey, lookupTarget]
  | cons p rest ih =>
    obtain ⟨k', v'⟩ := p
    by_cases h : k' = k
    · simpa [delKey, List.filter_cons, h] using ih
    · simpa [delKey, List.filter_cons, h, lookupTarget] using ih

theorem lookupTarget_delKey_ne (r : Registry) (k key : String)
    (h : key ≠ k) : lookupTarget (delKey r k) key = lookupTarget r key := by
  induction r with
  | nil => simp [delKey, lookupTarget]
  | cons p rest ih =>
    obtain ⟨k', v'⟩ := p
    by_cases h' : k' = k
    · have hk : ¬k = key := fun hc => h hc.symm
      simpa [delKey, List.filter_cons, h', lookupTarget, hk] using ih
    · by_cases h2 : k' = key
      · simp [delKey, List.filter_cons, h', lookupTarget, h2, h]
      · simpa [delKey, List.filter_cons, h', lookupTarget, h2] using ih

theorem mem_keys_setKey (r : Registry) (k x : String) (v : NoteSyncTarget)
    (hx : x ∈ (setKey r k v).map Prod.fst) :
    x = k ∨ x ∈ r.map Prod.fst := by
  induction r with
  | nil => simpa [setKey] using hx
  | cons p rest ih =>
    obtain ⟨k', v'⟩ := p
    by_cases h : k' = k
    · simp [setKey, h] at hx
      rcases hx with hx | hx
      · exact Or.inl hx
      · exact Or.inr (by simp [hx])
    · simp [setKey, h] at hx
      rcases hx with hx | hx
      · exact Or.inr (by simp [hx])
      · rcases ih (by simpa using hx) with h2 | h2
        · exact Or.inl h2
        · exact Or.inr (by simp [h2])

theorem nodupKeys_setKey (r : Registry) (k : String) (v : NoteSyncTarget)
    (h : (r.map Prod.fst).Nodup) : ((setKey r k v).map Prod.fst).Nodup := by
  induction r with
  | nil => simp [setKey]
  | cons p rest ih =>
    obtain ⟨k', v'⟩ := p
    simp only [List.map_cons, List.nodup_cons] at h
    by_cases h' : k' = k
    · have hs : setKey ((k', v') :: rest) k v = (k, v) :: rest := by
        simp [setKey, h']
      rw [hs]
      simp only [List.map_cons, List.nodup_cons]
      exact ⟨h' ▸ h.1, h.2⟩
    · have hs : setKey ((k', v') :: rest) k v = (k', v') :: setKey rest k v := by
        simp [setKey, h']
      rw [hs]
      simp only [List.map_cons, List.nodup_cons]
      refine ⟨?_, ih h.2⟩
      intro hc
      rcases mem_keys_setKey rest k k' v hc with h2 | h2
      · exact h' h2
      · exact h.1 h2

/-- A key deletion preserves uniqueness of the registry keys. -/
theorem nodupKeys_delKey (r : Registry) (k : String)
    (h : (r.map Prod.fst).Nodup) : ((delKey r k).map Prod.fst).Nodup :=
  List.Nodup.sublist ((List.filter_sublist r).map Prod.fst) h

/-- Characterization of the rename handler when the old path has no entry. -/
theorem renameNoteHandler_of_none (r : Registry) (oldPath newPath : String)
    (h : lookupTarget r oldPath = none) :
    renameNoteHandler r oldPath newPath = r := by
  simp [renameNoteHandler, h]

/-- Characterization of the rename handler when the old path has an entry:
its target moves to the new path, the old key disappears, and every other key
is untouched. -/
theorem renameNoteHandler_of_some (r : Registry) (oldPath newPath : String)
    (t : NoteSyncTarget) (h : lookupTarget r oldPath = some t) :
    lookupTarget (renameNoteHandler r oldPath newPath) newPath = some t ∧
    (oldPath ≠ newPath →
      lookupTarget (renameNoteHandler r oldPath newPath) oldPath = none) ∧
    (∀ k, k ≠ oldPath → k ≠ newPath →
      lookupTarget (renameNoteHandler r oldPath newPath) k =
        lookupTarget r k) := by
  have hr : renameNoteHandler r oldPath newPath =
      setKey (delKey r oldPath) newPath t := by
    simp [renameNoteHandler, h]
  refine ⟨?_, ?_, ?_⟩
  · rw [hr]
    exact lookupTarget_setKey_self _ _ _
  · intro hne
    rw [hr, lookupTarget_setKey_ne _ _ _ _ (fun hc => hne hc.symm)]
    exact lookupTarget_delKey_self _ _
  · intro k hk1 hk2
    rw [hr, lookupTarget_setKey_ne _ _ _ _ (fun hc => hk2 hc.symm)]
    exact lookupTarget_delKey_ne _ _ _ hk1

/-! ### Claim theorems -/

/-- C7: for every registry state and every rename from `oldPath` to
`newPath`, if an entry exists at `oldPath` the rename handler removes the key
`oldPath` and inserts `newPath` mapped to the same target value (all other
keys unchanged); if no entry exists at `oldPath` the registry is left
unchanged. -/
theorem renameNote_moves_entry (r : Registry) (oldPath newPath : String) :
    (lookupTarget r oldPath = none →
      renameNoteHandler r oldPath newPath = r) ∧
    (∀ t, lookupTarget r oldPath = some t →
      lookupTarget (renameNoteHandler r oldPath newPath) newPath = some t ∧
      (oldPath ≠ newPath →
        lookupTarget (renameNoteHandler r oldPath newPath) oldPath = none) ∧
      (∀ k, k ≠ oldPath → k ≠ newPath →
        lookupTarget (renameNoteHandler r oldPath newPath) k =
          lookupTarget r k)) :=
  ⟨renameNoteHandler_of_none r oldPath newPath,
   fun t h => renameNoteHandler_of_some r oldPath newPath t h⟩

/-- Witness for C7 at a concrete registry: renaming `A.md` to `C.md` moves
its target, and renaming a missing key is a no-op. -/
theorem renameNote_moves_entry_witness :
    lookupTarget (renameNoteHandler [("A.md", sampleTargetA),
      ("B.md", sampleTargetB)] "A.md" "C.md") "C.md" = some sampleTargetA ∧
    lookupTarget (renameNoteHandler [("A.md", sampleTargetA),
      ("B.md", sampleTargetB)] "A.md" "C.md") "A.md" = none ∧
    lookupTarget (renameNoteHandler [("A.md", sampleTargetA),
      ("B.md", sampleTargetB)] "A.md" "C.md") "B.md" =
      lookupTarget [("A.md", sampleTargetA), ("B.md", sampleTargetB)] "B.md" ∧
    renameNoteHandler [("A.md", sampleTargetA)] "X.md" "Y.md" =
      [("A.md", sampleTargetA)] := by
  have h1 := (renameNote_moves_entry [("A.md", sampleTargetA),
    ("B.md", sampleTargetB)] "A.md" "C.md").2 sampleTargetA (by decide)
  have h2 := (renameNote_moves_entry [("A.md", sampleTargetA)]
    "X.md" "Y.md").1 (by decide)
  exact ⟨h1.1, h1.2.1 (by decide), h1.2.2 "B.md" (by decide) (by decide), h2⟩

/-- C8: setting a target for note `n` and then reading the registry yields a
mapping that contains `n -> t` exactly — the new target fully replaces any
previous entry at `n` — and leaves every other entry unchanged. -/
theorem setTarget_allTargets_roundtrip (r : Registry) (n : String)
    (t : NoteSyncTarget) :
    lookupTarget (setNoteTarget r n (some t)) n = some t ∧
    (∀ k, k ≠ n →
      lookupTarget (setNoteTarget r n (some t)) k = lookupTarget r k) := by
  constructor
  · exact lookupTarget_setKey_self r n t
  · intro k hk
    exact lookupTarget_setKey_ne r n k t (fun hc => hk hc.symm)

/-- Witness for C8 at a concrete registry: the replaced entry reads back
exactly, and the other entry is untouched. -/
theorem setTarget_allTargets_roundtrip_witness :
    lookupTarget (setNoteTarget [("A.md", sampleTargetA),
      ("B.md", sampleTargetB)] "A.md" (some sampleTargetB)) "A.md" =
      some sampleTargetB ∧
    lookupTarget (setNoteTarget [("A.md", sampleTargetA),
      ("B.md", sampleTargetB)] "A.md" (some sampleTargetB)) "B.md" =
      lookupTarget [("A.md", sampleTargetA), ("B.md", sampleTargetB)] "B.md" :=
  ⟨(setTarget_allTargets_roundtrip _ "A.md" sampleTargetB).1,
   (setTarget_allTargets_roundtrip _ "A.md" sampleTargetB).2 "B.md" (by decide)⟩

/-- C9: when both `oldPath` and `newPath` have entries, the rename handler
replaces `newPath`'s target with `oldPath`'s former target, removes
`oldPath`'s entry, leaves all other entries unchanged, and keeps the
registry's keys unique — `newPath`'s previous target is silently lost. -/
theorem renameNote_overwrites_existing (r : Registry)
    (oldPath newPath : String) (t t' : NoteSyncTarget)
    (hne : oldPath ≠ newPath)
    (hold : lookupTarget r oldPath = some t)
    (_hnew : lookupTarget r newPath = some t') :
    lookupTarget (renameNoteHandler r oldPath newPath) newPath = some t ∧
    lookupTarget (renameNoteHandler r oldPath newPath) oldPath = none ∧
    (∀ k, k ≠ oldPath → k ≠ newPath →
      lookupTarget (renameNoteHandler r oldPath newPath) k =
        lookupTarget r k) ∧
    ((r.map Prod.fst).Nodup →
      ((renameNoteHandler r oldPath newPath).map Prod.fst).Nodup) := by
  have h := renameNoteHandler_of_some r oldPath newPath t hold
  refine ⟨h.1, h.2.1 hne, h.2.2, ?_⟩
  intro hnodup
  have hr : renameNoteHandler r oldPath newPath =
      setKey (delKey r oldPath) newPath t := by
    simp [renameNoteHandler, hold]
  rw [hr]
  exact nodupKeys_setKey _ _ _ (nodupKeys_delKey _ _ hnodup)

/-- Witness for C9: with entries at both `A.md` and `B.md`, renaming `A.md`
to `B.md` leaves `B.md` bound to `A.md`'s former target, drops `A.md`, and
keeps the keys unique. -/
theorem renameNote_overwrites_existing_witness :
    lookupTarget (renameNoteHandler [("A.md", sampleTargetA),
      ("B.md", sampleTargetB)] "A.md" "B.md") "B.md" = some sampleTargetA ∧
    lookupTarget (renameNoteHandler [("A.md", sampleTargetA),
      ("B.md", sampleTargetB)] "A.md" "B.md") "A.md" = none ∧
    ((renameNoteHandler [("A.md", sampleTargetA), ("B.md", sampleTargetB)]
      "A.md" "B.md").map Prod.fst).Nodup := by
  have h := renameNote_overwrites_existing
    [("A.md", sampleTargetA), ("B.md", sampleTargetB)] "A.md" "B.md"
    sampleTargetA sampleTargetB (by decide) (by decide) (by decide)
  exact ⟨h.1, h.2.1, h.2.2.2 (by decide)⟩

/-- C4: on a `github.com` URL whose non-empty path segments decode to at
least 5 segments with `"blob"` at index 2, `parse` returns the target built
from decoded segments 0, 1, 3 and the remaining segments joined with `/`; on
a `raw.githubusercontent.com` URL with at least 4 decoded segments it uses
segments 0-2 and the remainder; and the documented example URL parses to
`{owner: "alice", repo: "notes", branch: "main", filePath: "docs/page.md"}`. -/
theorem parseGitHubFileUrl_valid_urls :
    (∀ (u : ParsedUrl) (owner repo branch : String) (rest : List String),
      jsToLowerCase u.hostname = "github.com" →
      urlPathParts u.pathname = some (owner :: repo :: "blob" :: branch :: rest) →
      rest ≠ [] →
      parseGitHubFileUrl (some u) =
        some ⟨owner, repo, branch, jsJoin "/" rest⟩) ∧
    (∀ (u : ParsedUrl) (owner repo branch : String) (rest : List String),
      jsToLowerCase u.hostname = "raw.githubusercontent.com" →
      urlPathParts u.pathname = some (owner :: repo :: branch :: rest) →
      rest ≠ [] →
      parseGitHubFileUrl (some u) =
        some ⟨owner, repo, branch, jsJoin "/" rest⟩) ∧
    parseGitHubFileUrl
      (some ⟨"github.com", "/alice/notes/blob/main/docs/page.md"⟩) =
      some ⟨"alice", "notes", "main", "docs/page.md"⟩ := by
  refine ⟨?_, ?_, by decide⟩
  · intro u owner repo branch rest hhost hparts hrest
    have hpos : 0 < rest.length := List.length_pos.mpr hrest
    have hlen : ¬(owner :: repo :: "blob" :: branch :: rest).length < 5 := by
      simp [List.length_cons]
      omega
    simp [parseGitHubFileUrl, hhost, hparts, hlen, List.getD]
    omega
  · intro u owner repo branch rest hhost hparts hrest
    have hpos : 0 < rest.length := List.length_pos.mpr hrest
    have hlen : ¬(owner :: repo :: branch :: rest).length < 4 := by
      simp [List.length_cons]
      omega
    simp [parseGitHubFileUrl, hhost, hparts, hlen, List.getD]
    omega

/-- Witness for C4: the two recognized URL forms at concrete inputs. -/
theorem parseGitHubFileUrl_valid_urls_witness :
    parseGitHubFileUrl
      (some ⟨"github.com", "/alice/notes/blob/main/docs/page.md"⟩) =
      some ⟨"alice", "notes", "main", "docs/page.md"⟩ ∧
    parseGitHubFileUrl
      (some ⟨"raw.githubusercontent.com", "/bob/wiki/main/a/b.md"⟩) =
      some ⟨"bob", "wiki", "main", "a/b.md"⟩ := by
  constructor
  · have h := parseGitHubFileUrl_valid_urls.1
      ⟨"github.com", "/alice/notes/blob/main/docs/page.md"⟩
      "alice" "notes" "main" ["docs", "page.md"]
      (by decide) (by decide) (by decide)
    exact h.trans (by decide)
  · have h := parseGitHubFileUrl_valid_urls.2.1
      ⟨"raw.githubusercontent.com", "/bob/wiki/main/a/b.md"⟩
      "bob" "wiki" "main" ["a", "b.md"]
      (by decide) (by decide) (by decide)
    exact h.trans (by decide)

/-- C5: `parse` rejects (returns null for) hosts other than `github.com` and
`raw.githubusercontent.com`, `github.com` URLs with fewer than 5 segments or
without `"blob"` at segment index 2, `raw.githubusercontent.com` URLs with
fewer than 4 segments, and strings that are not syntactically valid URLs
(modelled as a throwing `new URL`, i.e. a `none` argument). -/
theorem parseGitHubFileUrl_rejects :
    parseGitHubFileUrl none = none ∧
    (∀ u : ParsedUrl, jsToLowerCase u.hostname ≠ "github.com" →
      jsToLowerCase u.hostname ≠ "raw.githubusercontent.com" →
      parseGitHubFileUrl (some u) = none) ∧
    (∀ (u : ParsedUrl) (parts : List String),
      jsToLowerCase u.hostname = "github.com" →
      urlPathParts u.pathname = some parts →
      (parts.length < 5 ∨ parts[2]? ≠ some "blob") →
      parseGitHubFileUrl (some u) = none) ∧
    (∀ (u : ParsedUrl) (parts : List String),
      jsToLowerCase u.hostname = "raw.githubusercontent.com" →
      urlPathParts u.pathname = some parts →
      parts.length < 4 →
      parseGitHubFileUrl (some u) = none) := by
  refine ⟨rfl, ?_, ?_, ?_⟩
  · intro u h1 h2
    simp only [parseGitHubFileUrl]
    cases urlPathParts u.pathname with
    | none => rfl
    | some parts => simp [h1, h2]
  · intro u parts hhost hparts hbad
    simp [parseGitHubFileUrl, hhost, hparts, hbad]
  · intro u parts hhost hparts hlen
    simp [parseGitHubFileUrl, hhost, hparts, hlen]

/-- Witness for C5: a foreign host, a `github.com` URL with `tree` instead of
`blob`, and a too-short `raw.githubusercontent.com` URL are all rejected. -/
theorem parseGitHubFileUrl_rejects_witness :
    parseGitHubFileUrl (some ⟨"gitlab.com", "/alice/notes/blob/main/x.md"⟩) =
      none ∧
    parseGitHubFileUrl (some ⟨"github.com", "/alice/notes/tree/main/x.md"⟩) =
      none ∧
    parseGitHubFileUrl (some ⟨"raw.githubusercontent.com", "/alice/notes"⟩) =
      none := by
  refine ⟨?_, ?_, ?_⟩
  · exact parseGitHubFileUrl_rejects.2.1
      ⟨"gitlab.com", "/alice/notes/blob/main/x.md"⟩ (by decide) (by decide)
  · exact parseGitHubFileUrl_rejects.2.2.1
      ⟨"github.com", "/alice/notes/tree/main/x.md"⟩
      ["alice", "notes", "tree", "main", "x.md"] (by decide) (by decide)
      (by decide)
  · exact parseGitHubFileUrl_rejects.2.2.2
      ⟨"raw.githubusercontent.com", "/alice/notes"⟩ ["alice", "notes"]
      (by decide) (by decide) (by decide)

/-- C10: `parse` is insensitive to the letter case of the hostname — two URLs
differing only in hostname case parse identically. -/
theorem parseGitHubFileUrl_hostname_case_insensitive (u v : ParsedUrl)
    (hhost : jsToLowerCase u.hostname = jsToLowerCase v.hostname)
    (hpath : u.pathname = v.pathname) :
    parseGitHubFileUrl (some u) = parseGitHubFileUrl (some v) := by
  simp only [parseGitHubFileUrl, hhost, hpath]

/-- Witness for C10: a mixed-case `GitHub.com` URL parses exactly like its
lowercase twin, and is accepted. -/
theorem parseGitHubFileUrl_hostname_case_insensitive_witness :
    parseGitHubFileUrl
      (some ⟨"GitHub.com", "/alice/notes/blob/main/docs/page.md"⟩) =
      parseGitHubFileUrl
        (some ⟨"github.com", "/alice/notes/blob/main/docs/page.md"⟩) ∧
    parseGitHubFileUrl
      (some ⟨"GitHub.com", "/alice/notes/blob/main/docs/page.md"⟩) =
      some ⟨"alice", "notes", "main", "docs/page.md"⟩ :=
  ⟨parseGitHubFileUrl_hostname_case_insensitive
    ⟨"GitHub.com", "/alice/notes/blob/main/docs/page.md"⟩
    ⟨"github.com", "/alice/notes/blob/main/docs/page.md"⟩ (by decide) rfl,
   by decide⟩

/-! ### Claims about the single-note sync engine -/

/-- A string of length zero is the empty string. -/
theorem string_eq_empty_of_length_eq_zero {s : String} (h : s.length = 0) :
    s = "" := by
  cases s with
  | mk data =>
    cases data with
    | nil => rfl
    | cons c cs => simp [String.length] at h

/-- The credential check at `src/main.ts:183` (`!token || token.trim().length
=== 0`) fails exactly when the trimmed token is empty. -/
theorem tokenMissing_iff (tok : String) :
    (tok = "" ∨ (jsTrim tok).length = 0) ↔ jsTrim tok = "" := by
  constructor
  · rintro (rfl | h)
    · rfl
    · exact string_eq_empty_of_length_eq_zero h
  · intro h
    rw [h]
    exact Or.inr rfl

/-- C2: whenever the engine reaches the write step, the PUT body's `sha`
field mirrors the conditional read: absent (no `sha` field in the serialized
body) after a 404, and equal to the revision marker `r` after a successful
read of an existing file. -/
theorem syncNote_put_sha (settings : GHSyncSettings) (file : NoteFile)
    (content : String) (env : RemoteEnv) (nowIso : String)
    (target : NoteSyncTarget)
    (htarget : lookupTarget settings.noteTargets file.path = some target)
    (htoken : jsTrim settings.githubToken ≠ "") :
    (env.readResult = ReadResult.err (some 404) →
      (putBodies (syncNoteWithGitHub settings file (some content) env
        nowIso).2).map PutBody.sha = [none]) ∧
    (∀ r, env.readResult = ReadResult.ok r →
      (putBodies (syncNoteWithGitHub settings file (some content) env
        nowIso).2).map PutBody.sha = [some r]) := by
  have hcond : ¬(settings.githubToken = "" ∨
      (jsTrim settings.githubToken).length = 0) :=
    fun hc => htoken ((tokenMissing_iff _).mp hc)
  obtain ⟨rr, wok⟩ := env
  constructor
  · intro h404
    simp only at h404
    subst h404
    cases wok <;> simp [syncNoteWithGitHub, htarget, hcond, putBodies]
  · intro r hok
    simp only at hok
    subst hok
    cases wok <;> simp [syncNoteWithGitHub, htarget, hcond, putBodies]

/-- Witness for C2: against the sample settings, a 404 read leads to a PUT
with no `sha`, and a read that found revision `r1` leads to a PUT carrying
`sha = r1`. -/
theorem syncNote_put_sha_witness :
    (putBodies (syncNoteWithGitHub sampleSettings ⟨"A.md", "A.md"⟩
      (some "hello") ⟨ReadResult.err (some 404), true⟩ "T").2).map
      PutBody.sha = [none] ∧
    (putBodies (syncNoteWithGitHub sampleSettings ⟨"A.md", "A.md"⟩
      (some "hello") ⟨ReadResult.ok "r1", true⟩ "T").2).map
      PutBody.sha = [some "r1"] :=
  ⟨(syncNote_put_sha sampleSettings ⟨"A.md", "A.md"⟩ "hello"
      ⟨ReadResult.err (some 404), true⟩ "T" sampleTargetA
      (by decide) (by decide)).1 rfl,
   (syncNote_put_sha sampleSettings ⟨"A.md", "A.md"⟩ "hello"
      ⟨ReadResult.ok "r1", true⟩ "T" sampleTargetA
      (by decide) (by decide)).2 "r1" rfl⟩

/-- C3: a 404 answer to the conditional read is treated as "remote file
absent" and the engine proceeds to issue exactly one write request, while any
other read failure ends that note's sync with `readFailed` before any write
request is issued. -/
theorem syncNote_read_404_vs_other_failures (settings : GHSyncSettings)
    (file : NoteFile) (content : String) (env : RemoteEnv) (nowIso : String)
    (target : NoteSyncTarget)
    (htarget : lookupTarget settings.noteTargets file.path = some target)
    (htoken : jsTrim settings.githubToken ≠ "") :
    (env.readResult = ReadResult.err (some 404) →
      (putBodies (syncNoteWithGitHub settings file (some content) env
        nowIso).2).length = 1) ∧
    (∀ status, env.readResult = ReadResult.err status → status ≠ some 404 →
      (syncNoteWithGitHub settings file (some content) env nowIso).1 =
        SyncResult.readFailed ∧
      putBodies (syncNoteWithGitHub settings file (some content) env
        nowIso).2 = []) := by
  have hcond : ¬(settings.githubToken = "" ∨
      (jsTrim settings.githubToken).length = 0) :=
    fun hc => htoken ((tokenMissing_iff _).mp hc)
  obtain ⟨rr, wok⟩ := env
  constructor
  · intro h404
    simp only at h404
    subst h404
    cases wok <;> simp [syncNoteWithGitHub, htarget, hcond, putBodies]
  · intro status hst hne
    simp only at hst
    subst hst
    cases wok <;>
      simp [syncNoteWithGitHub, htarget, hcond, putBodies, hne]

/-- Witness for C3: a 500 read failure yields `readFailed` and no PUT, while
a 404 still leads to one PUT. -/
theorem syncNote_read_404_vs_other_failures_witness :
    (putBodies (syncNoteWithGitHub sampleSettings ⟨"A.md", "A.md"⟩
      (some "hello") ⟨ReadResult.err (some 404), true⟩ "T").2).length = 1 ∧
    (syncNoteWithGitHub sampleSettings ⟨"A.md", "A.md"⟩ (some "hello")
      ⟨ReadResult.err (some 500), true⟩ "T").1 = SyncResult.readFailed ∧
    putBodies (syncNoteWithGitHub sampleSettings ⟨"A.md", "A.md"⟩
      (some "hello") ⟨ReadResult.err (some 500), true⟩ "T").2 = [] := by
  have h1 := (syncNote_read_404_vs_other_failures sampleSettings
    ⟨"A.md", "A.md"⟩ "hello" ⟨ReadResult.err (some 404), true⟩ "T"
    sampleTargetA (by decide) (by decide)).1 rfl
  have h2 := (syncNote_read_404_vs_other_failures sampleSettings
    ⟨"A.md", "A.md"⟩ "hello" ⟨ReadResult.err (some 500), true⟩ "T"
    sampleTargetA (by decide) (by decide)).2 (some 500) rfl (by decide)
  exact ⟨h1, h2.1, h2.2⟩

/-- C6: a sync on a note with no registry entry returns the
no-target-configured outcome without issuing any request, and a sync on a
note whose registry entry exists but whose access token trims to empty
returns the missing-credential outcome without issuing any request. -/
theorem syncNote_preconditions (settings : GHSyncSettings) (file : NoteFile)
    (vaultContent : Option String) (env : RemoteEnv) (nowIso : String) :
    (lookupTarget settings.noteTargets file.path = none →
      syncNoteWithGitHub settings file vaultContent env nowIso =
        (SyncResult.noTarget, [])) ∧
    (∀ target, lookupTarget settings.noteTargets file.path = some target →
      jsTrim settings.githubToken = "" →
      syncNoteWithGitHub settings file vaultContent env nowIso =
        (SyncResult.missingToken, [])) := by
  constructor
  · intro h
    simp [syncNoteWithGitHub, h]
  · intro target htarget htrim
    have hcond : settings.githubToken = "" ∨
        (jsTrim settings.githubToken).length = 0 :=
      (tokenMissing_iff _).mpr htrim
    simp [syncNoteWithGitHub, htarget, hcond]

/-- Witness for C6: an unregistered note and a whitespace-only token each
abort with the matching outcome and an empty request list. -/
theorem syncNote_preconditions_witness :
    syncNoteWithGitHub sampleSettings ⟨"B.md", "B.md"⟩ (some "hello")
      ⟨ReadResult.err (some 404), true⟩ "T" = (SyncResult.noTarget, []) ∧
    syncNoteWithGitHub sampleSettingsBlankToken ⟨"A.md", "A.md"⟩
      (some "hello") ⟨ReadResult.err (some 404), true⟩ "T" =
      (SyncResult.missingToken, []) :=
  ⟨(syncNote_preconditions sampleSettings ⟨"B.md", "B.md"⟩ (some "hello")
      ⟨ReadResult.err (some 404), true⟩ "T").1 (by decide),
   (syncNote_preconditions sampleSettingsBlankToken ⟨"A.md", "A.md"⟩
      (some "hello") ⟨ReadResult.err (some 404), true⟩ "T").2
      sampleTargetA (by decide) (by decide)⟩

/-! ### Claim about the batch driver -/

/-- The per-note outcome recorded in a batch step, `none` for a path that did
not resolve to a file. -/
def stepOutcome : BatchStep → Option SyncResult
  | .attempted _ result _ => some result
  | .notAFile _ => none

/-- Registry for the mixed-outcome batch scenario: three targeted notes. -/
def mixedBatchSettings : GHSyncSettings :=
  ⟨0, false, true, "tok",
   [("A.md", sampleTargetA), ("B.md", sampleTargetB), ("C.md", sampleTargetA)]⟩

/-- Vault and remote behaviour for the mixed-outcome batch scenario: `A.md`
resolves and its write succeeds, `B.md` resolves but its write is rejected
by the remote, `C.md` no longer resolves to a file. -/
def mixedBatchEnv : String → BatchNoteEnv := fun p =>
  if p = "A.md" then ⟨true, some "alpha", ⟨ReadResult.err (some 404), true⟩⟩
  else if p = "B.md" then ⟨true, some "beta", ⟨ReadResult.ok "r1", false⟩⟩
  else ⟨false, none, ⟨ReadResult.err none, false⟩⟩

/-- C1: evaluation of `SyncAllTargetedNotes` on the mixed scenario. All three
registry entries are attempted in order and no per-note failure aborts the
batch; the unresolved entry `C.md` is counted as a failure without any remote
API call (0 requests); but `B.md`, whose remote write was rejected (per-note
outcome `writeFailed`), is counted as a success: the summary is 2 succeeded /
1 failed, not the 1 succeeded / 2 failed the claim requires, because
`syncNoteWithGitHub` swallows remote failures before the batch counters can
see them. -/
theorem syncAll_counts_remote_write_failure_as_success :
    (SyncAllTargetedNotes mixedBatchSettings mixedBatchEnv "T").1 = 2 ∧
    (SyncAllTargetedNotes mixedBatchSettings mixedBatchEnv "T").2.1 = 1 ∧
    (SyncAllTargetedNotes mixedBatchSettings mixedBatchEnv "T").2.2.map
      stepOutcome =
      [some SyncResult.synced, some SyncResult.writeFailed, none] ∧
    ((SyncAllTargetedNotes mixedBatchSettings mixedBatchEnv "T").2.2.map
      stepRequests).map List.length = [2, 2, 0] := by
  decide

end GHSync
